import Mathlib

/-!
Shallow embedding of the amygdala-lateralization pipeline's validation and
mask-construction logic (scripts/run_and_qa.py, scripts/02_compute_asymmetry_vs_anxiety.py,
scripts/03_generate_figures.py), together with theorems settling the frozen claims.

Numeric values carried by the tabular data are modelled as rationals; the
non-finite floating values produced by pandas on a zero division (inf, -inf, NaN)
are modelled by a dedicated constructor `PVal.nonfin`.
-/

namespace AmygQA

/-! ## Python string primitives (str.strip, str.lower, substring `in`) -/

/-- Whitespace test matching the characters Python's `str.strip` removes
for the ASCII data handled by this pipeline. -/
def isWS (c : Char) : Bool :=
  c = ' ' || c = '\t' || c = '\n' || c = '\r'

/-- Python `str.strip`: drop leading and trailing whitespace. -/
def pstrip (s : String) : String :=
  ⟨((s.toList.dropWhile isWS).reverse.dropWhile isWS).reverse⟩

/-- Python `str.lower` (ASCII, which is all this pipeline's column names use). -/
def plower (s : String) : String :=
  ⟨s.toList.map Char.toLower⟩

/-- Does `pat` occur at the front of `l`? -/
def matchesFront : List Char → List Char → Bool
  | [], _ => true
  | _ :: _, [] => false
  | a :: pat, b :: l => a == b && matchesFront pat l

/-- Does `pat` occur somewhere in `l`? (Python's `pat in s` on strings.) -/
def hasSub (pat : List Char) : List Char → Bool
  | [] => pat.isEmpty
  | b :: l => matchesFront pat (b :: l) || hasSub pat l

/-- Python `needle in hay` for strings. -/
def strContains (hay needle : String) : Bool :=
  hasSub needle.toList hay.toList

/-! ## Pandas numeric values and arithmetic -/

/-- A pandas float cell: either a finite value (modelled as a rational) or a
non-finite value (inf, -inf or NaN, which this development does not distinguish). -/
inductive PVal where
  | fin : ℚ → PVal
  | nonfin : PVal
deriving DecidableEq

/-- Element-wise addition; non-finite operands propagate. -/
def padd : PVal → PVal → PVal
  | .fin a, .fin b => .fin (a + b)
  | _, _ => .nonfin

/-- Element-wise subtraction; non-finite operands propagate. -/
def psub : PVal → PVal → PVal
  | .fin a, .fin b => .fin (a - b)
  | _, _ => .nonfin

/-- Element-wise division; a zero divisor yields a non-finite value
(numpy/pandas produce inf, -inf or NaN there, never a silent zero). -/
def pdiv : PVal → PVal → PVal
  | .fin a, .fin b => if b = 0 then .nonfin else .fin (a / b)
  | _, _ => .nonfin

/-- The asymmetry formula `(R - L) / (R + L)` as pandas evaluates it per row
(scripts/run_and_qa.py line 93, scripts/02_compute_asymmetry_vs_anxiety.py line 34). -/
def pasym (l r : PVal) : PVal :=
  pdiv (psub r l) (padd r l)

/-! ## DataFrame model -/

/-- A pandas DataFrame: an ordered list of named columns. -/
structure DataFrame where
  cols : List (String × List PVal)
deriving DecidableEq

/-- `c in df.columns`. -/
def DataFrame.hasCol (df : DataFrame) (c : String) : Bool :=
  (df.cols.map Prod.fst).contains c

/-- `df[c]`: values of the first column named `c` (empty if absent). -/
def DataFrame.getCol (df : DataFrame) (c : String) : List PVal :=
  match df.cols.find? (fun p => p.1 = c) with
  | some p => p.2
  | none => []

/-- `df.shape[0]`. -/
def DataFrame.nRows (df : DataFrame) : Nat :=
  match df.cols with
  | [] => 0
  | p :: _ => p.2.length

/-- `df[c] = vals` for a fresh column `c`: pandas appends it after the
existing columns. -/
def DataFrame.addCol (df : DataFrame) (c : String) (vs : List PVal) : DataFrame :=
  ⟨df.cols ++ [(c, vs)]⟩

/-- The derived Asymmetry series
`(df["Amygdala_R"] - df["Amygdala_L"]) / (df["Amygdala_R"] + df["Amygdala_L"])`. -/
def deriveAsym (df : DataFrame) : List PVal :=
  List.zipWith pasym (df.getCol "Amygdala_L") (df.getCol "Amygdala_R")

/-! ## DatasetValidator (validate_roi_csv, scripts/run_and_qa.py lines 80-101) -/

/-- Fatal validator outcomes (`sys.exit` calls). -/
inductive VError where
  | missingArtifact : VError
  | schemaViolation : String → VError
deriving DecidableEq

/-- Observable outcome of one `validate_roi_csv` run: the returned DataFrame or
the fatal error, the file state at the input path afterwards, how many writes
were performed, and whether the low-row-count warning was printed. -/
structure VOut where
  result : Except VError DataFrame
  file : Option DataFrame
  writes : Nat
  lowRowWarn : Bool

/-- `validate_roi_csv` acting on the file at the ROI-CSV path: the file state is
modelled as `Option DataFrame` (`none` when the file does not exist; reading and
writing a CSV round-trips the table). -/
def validate_roi_csv (file : Option DataFrame) : VOut :=
  match file with
  | none => ⟨Except.error VError.missingArtifact, none, 0, false⟩
  | some df =>
    let warn := decide (df.nRows < 10)
    if df.hasCol "Amygdala_L" = false then
      ⟨Except.error (VError.schemaViolation "Amygdala_L"), some df, 0, warn⟩
    else if df.hasCol "Amygdala_R" = false then
      ⟨Except.error (VError.schemaViolation "Amygdala_R"), some df, 0, warn⟩
    else if df.hasCol "Asymmetry" = false then
      let df2 := df.addCol "Asymmetry" (deriveAsym df)
      ⟨Except.ok df2, some df2, 1, warn⟩
    else
      ⟨Except.ok df, some df, 0, warn⟩

/-! ## AtlasMaskBuilder (fix_overlay_mask_and_render, scripts/run_and_qa.py lines 116-167) -/

/-- `[lbl.strip() for lbl in ho.labels if str(lbl).strip()]`: strip every
vocabulary entry and drop entries blank after stripping. -/
def cleanLabels (vocab : List String) : List String :=
  (vocab.map pstrip).filter (fun s => s ≠ "")

/-- Positional, index-carrying filter: `enumerate` plus a comprehension
condition, starting the count at `k`. -/
def indexedFilter (p : String → Bool) : List String → ℕ → List ℕ
  | [], _ => []
  | s :: rest, k =>
    if p s then k :: indexedFilter p rest (k + 1) else indexedFilter p rest (k + 1)

/-- `[i for i, name in enumerate(labels) if ("Amygdala" in name) and ("Extended" not in name)]`,
parametrised by the target and exclusion substrings. -/
def matchIndices (labels : List String) (target excl : String) : List ℕ :=
  indexedFilter (fun name => strContains name target && !strContains name excl) labels 0

/-- `np.isin(atlas_data, amyg_indices).astype(np.int8)`: the label volume is
modelled as the flat list of its voxels' label values. -/
def buildMaskData (volume : List ℕ) (idxs : List ℕ) : List ℕ :=
  volume.map (fun v => if v ∈ idxs then 1 else 0)

/-- `float(mask_data.sum()) / float(mask_data.size)`. -/
def coverageFrac (mask : List ℕ) : ℚ :=
  (mask.sum : ℚ) / (mask.length : ℚ)

/-- An atlas: the ordered label vocabulary and the co-registered label volume
(flattened; each voxel holds an index into the vocabulary). -/
structure Atlas where
  labels : List String
  volume : List ℕ

/-- Fatal mask-builder outcome: the label filter matched nothing
(`if not amyg_indices: ... return`). -/
inductive MaskError where
  | noMatchingLabels : MaskError
deriving DecidableEq

/-- Observable outcome of one mask-builder run: the built mask or the error,
the mask artifact persisted at MASK_PATH, and whether the oversized-coverage
warning was printed. -/
structure MaskOut where
  result : Except MaskError (List ℕ)
  savedMask : Option (List ℕ)
  warned : Bool

/-- The mask-construction core of `fix_overlay_mask_and_render`, parametrised
by the target and exclusion substrings (the source hardcodes "Amygdala" and
"Extended"). Rendering of the overlay figure is outside the embedding. -/
def fix_overlay_mask_and_render (atlas : Atlas) (target excl : String) : MaskOut :=
  let labels := cleanLabels atlas.labels
  let amyg_indices := matchIndices labels target excl
  if amyg_indices.isEmpty then
    ⟨Except.error MaskError.noMatchingLabels, none, false⟩
  else
    let mask_data := buildMaskData atlas.volume amyg_indices
    let frac := coverageFrac mask_data
    let warned := decide (frac > 2 / 100)
    ⟨Except.ok mask_data, some mask_data, warned⟩

/-! ## SchemaNormalizer (scripts/02_compute_asymmetry_vs_anxiety.py lines 50-66)

The anxiety table is modelled as an ordered list of (column name, column
payload) pairs; the payload type is abstract since the normalizer only
renames columns. -/

/-- `c.strip().lower()`. -/
def normName (s : String) : String :=
  plower (pstrip s)

/-- The column names of a table. -/
def colNames {α : Type} (t : List (String × α)) : List String :=
  t.map Prod.fst

/-- `anx_df.columns = [c.strip().lower() for c in anx_df.columns]`. -/
def normCols {α : Type} (t : List (String × α)) : List (String × α) :=
  t.map (fun p => (normName p.1, p.2))

/-- `df.rename(columns={old: new})`: every column named `old` is renamed. -/
def renameCol {α : Type} (old new : String) (t : List (String × α)) : List (String × α) :=
  t.map (fun p => if p.1 = old then (new, p.2) else p)

/-- First candidate present among the table's column names. -/
def findFirst (cands : List String) (ns : List String) : Option String :=
  cands.find? (fun c => ns.contains c)

/-- The priority list for the subject-identifier column. -/
def subjCands : List String := ["sub", "participant", "id", "participant_id"]

/-- The priority list for the trait-anxiety score column. -/
def staiCands : List String := ["trait_anxiety", "anxiety", "score"]

/-- `if canonical not in columns: for candidate in cands: if candidate in
columns: rename; break`. -/
def resolveKey {α : Type} (canonical : String) (cands : List String)
    (t : List (String × α)) : List (String × α) :=
  if (colNames t).contains canonical then t
  else
    match findFirst cands (colNames t) with
    | some c => renameCol c canonical t
    | none => t

/-- The whole normalization block of 02_compute_asymmetry_vs_anxiety.py
(lines 50-66): lower-case and strip all column names, resolve the subject
and stai_t keys by priority scan, then capitalize the canonical names. -/
def normalize_anxiety_columns {α : Type} (t : List (String × α)) : List (String × α) :=
  renameCol "stai_t" "STAI_T" (renameCol "subject" "Subject"
    (resolveKey "stai_t" staiCands (resolveKey "subject" subjCands (normCols t))))

/-- The column name a resolution step treats as matched: the canonical name
itself when already present, else the first present candidate of the priority
list, else nothing (the table passes through unresolved). -/
def resolvedName {α : Type} (canonical : String) (cands : List String)
    (t : List (String × α)) : Option String :=
  if (colNames t).contains canonical then some canonical
  else findFirst cands (colNames t)

/-- Whether a resolution step actually renames — i.e. whether
`anx_df = anx_df.rename(...)` runs and rebinds the local variable to a fresh
DataFrame object. -/
def resolveHit {α : Type} (canonical : String) (cands : List String)
    (t : List (String × α)) : Bool :=
  !(colNames t).contains canonical && (findFirst cands (colNames t)).isSome

/-- State of the caller's table object after the normalization block
(02_compute_asymmetry_vs_anxiety.py lines 50-66):
`anx_df.columns = [c.strip().lower() for c in anx_df.columns]` (line 51)
lower-cases and trims its column names in place; the candidate renames
(lines 54-63) rebind the local variable to a fresh object and do not touch it;
the final `rename(..., inplace=True)` (line 66) mutates whatever object the
variable holds, which is the caller's object only when neither candidate
rename rebound the variable. -/
def normalize_anxiety_columns_caller {α : Type} (t : List (String × α)) :
    List (String × α) :=
  if resolveHit "subject" subjCands (normCols t) ||
      resolveHit "stai_t" staiCands (resolveKey "subject" subjCands (normCols t)) then
    normCols t
  else
    renameCol "stai_t" "STAI_T" (renameCol "subject" "Subject" (normCols t))

/-! ## Helper lemmas -/

instance {ε α : Type} [DecidableEq ε] [DecidableEq α] : DecidableEq (Except ε α) :=
  fun a b =>
  match a, b with
  | Except.ok x, Except.ok y =>
    if h : x = y then Decidable.isTrue (by rw [h])
    else Decidable.isFalse (fun hc => h (Except.ok.inj hc))
  | Except.error x, Except.error y =>
    if h : x = y then Decidable.isTrue (by rw [h])
    else Decidable.isFalse (fun hc => h (Except.error.inj hc))
  | Except.ok _, Except.error _ => Decidable.isFalse (fun hc => Except.noConfusion hc)
  | Except.error _, Except.ok _ => Decidable.isFalse (fun hc => Except.noConfusion hc)

lemma hasCol_addCol_self (df : DataFrame) (c : String) (vs : List PVal) :
    (df.addCol c vs).hasCol c = true := by
  simp [DataFrame.hasCol, DataFrame.addCol, List.contains]

lemma hasCol_addCol_of_hasCol (df : DataFrame) {c' : String} (c : String) (vs : List PVal)
    (h : df.hasCol c' = true) : (df.addCol c vs).hasCol c' = true := by
  simp only [DataFrame.hasCol, DataFrame.addCol, List.contains, List.elem_eq_mem,
    decide_eq_true_iff, List.map_append, List.mem_append] at h ⊢
  exact Or.inl h

lemma zipWith_get?_some {α β γ : Type} (f : α → β → γ) :
    ∀ (L : List α) (R : List β) (i : ℕ) (l : α) (r : β),
      L.get? i = some l → R.get? i = some r →
      (List.zipWith f L R).get? i = some (f l r)
  | [], _, i, _, _, hL, _ => by simp at hL
  | _ :: _, [], i, _, _, _, hR => by cases i <;> simp at hR
  | a :: L, b :: R, 0, l, r, hL, hR => by
    have ha : a = l := by simpa using hL
    have hb : b = r := by simpa using hR
    subst ha
    subst hb
    simp [List.zipWith]
  | a :: L, b :: R, (i + 1), l, r, hL, hR => by
    simpa using zipWith_get?_some f L R i l r (by simpa using hL) (by simpa using hR)

/-! ## C1-C4: DatasetValidator theorems -/

/-- C1: whenever `validate_roi_csv` returns successfully, both the returned
table and the file at the input path contain the columns Amygdala_L,
Amygdala_R and Asymmetry, with no further precondition. -/
theorem C1_success_columns (file : Option DataFrame) (df : DataFrame)
    (h : (validate_roi_csv file).result = Except.ok df) :
    (df.hasCol "Amygdala_L" = true ∧ df.hasCol "Amygdala_R" = true ∧
      df.hasCol "Asymmetry" = true) ∧
    ∃ f, (validate_roi_csv file).file = some f ∧
      f.hasCol "Amygdala_L" = true ∧ f.hasCol "Amygdala_R" = true ∧
      f.hasCol "Asymmetry" = true := by
  match file with
  | none => simp [validate_roi_csv] at h
  | some df0 =>
    by_cases hL : df0.hasCol "Amygdala_L" = false
    · simp [validate_roi_csv, hL] at h
    · by_cases hR : df0.hasCol "Amygdala_R" = false
      · simp [validate_roi_csv, hL, hR] at h
      · rw [Bool.not_eq_false] at hL hR
        by_cases hA : df0.hasCol "Asymmetry" = false
        · have hdf : df = df0.addCol "Asymmetry" (deriveAsym df0) := by
            simp [validate_roi_csv, hL, hR, hA] at h
            exact h.symm
          have hfile : (validate_roi_csv (some df0)).file =
              some (df0.addCol "Asymmetry" (deriveAsym df0)) := by
            simp [validate_roi_csv, hL, hR, hA]
          subst hdf
          refine ⟨⟨hasCol_addCol_of_hasCol _ _ _ hL, hasCol_addCol_of_hasCol _ _ _ hR,
            hasCol_addCol_self _ _ _⟩, _, hfile, hasCol_addCol_of_hasCol _ _ _ hL,
            hasCol_addCol_of_hasCol _ _ _ hR, hasCol_addCol_self _ _ _⟩
        · rw [Bool.not_eq_false] at hA
          have hdf : df = df0 := by
            simp [validate_roi_csv, hL, hR, hA] at h
            exact h.symm
          have hfile : (validate_roi_csv (some df0)).file = some df0 := by
            simp [validate_roi_csv, hL, hR, hA]
          subst hdf
          exact ⟨⟨hL, hR, hA⟩, df, hfile, hL, hR, hA⟩

theorem C1_witness :
    (validate_roi_csv (some ⟨[("Amygdala_L", [PVal.fin 1]), ("Amygdala_R", [PVal.fin 3]),
        ("Asymmetry", [PVal.fin 0])]⟩)).result =
      Except.ok ⟨[("Amygdala_L", [PVal.fin 1]), ("Amygdala_R", [PVal.fin 3]),
        ("Asymmetry", [PVal.fin 0])]⟩ ∧
    ((DataFrame.mk [("Amygdala_L", [PVal.fin 1]), ("Amygdala_R", [PVal.fin 3]),
        ("Asymmetry", [PVal.fin 0])]).hasCol "Amygdala_L" = true ∧
      (DataFrame.mk [("Amygdala_L", [PVal.fin 1]), ("Amygdala_R", [PVal.fin 3]),
        ("Asymmetry", [PVal.fin 0])]).hasCol "Amygdala_R" = true ∧
      (DataFrame.mk [("Amygdala_L", [PVal.fin 1]), ("Amygdala_R", [PVal.fin 3]),
        ("Asymmetry", [PVal.fin 0])]).hasCol "Asymmetry" = true) ∧
    ∃ f, (validate_roi_csv (some ⟨[("Amygdala_L", [PVal.fin 1]), ("Amygdala_R", [PVal.fin 3]),
        ("Asymmetry", [PVal.fin 0])]⟩)).file = some f ∧
      f.hasCol "Amygdala_L" = true ∧ f.hasCol "Amygdala_R" = true ∧
      f.hasCol "Asymmetry" = true :=
  ⟨rfl,
    C1_success_columns (some ⟨[("Amygdala_L", [PVal.fin 1]), ("Amygdala_R", [PVal.fin 3]),
      ("Asymmetry", [PVal.fin 0])]⟩) _ rfl⟩

/-- C2: per row with both hemisphere values present, the derived asymmetry is
exactly `(r - l) / (r + l)` when `r + l` is nonzero, and a non-finite value
when the sum is zero; the non-finite value is not zero and is kept at its row
position in the derived series, which the validator appends to the output table. -/
theorem C2_asymmetry_formula (l r : ℚ) (L R : List PVal) (i : ℕ) (lv rv : PVal)
    (df : DataFrame) (hL : L.get? i = some lv) (hR : R.get? i = some rv)
    (hc : df.hasCol "Amygdala_L" = true ∧ df.hasCol "Amygdala_R" = true ∧
      df.hasCol "Asymmetry" = false) :
    (r + l ≠ 0 → pasym (PVal.fin l) (PVal.fin r) = PVal.fin ((r - l) / (r + l))) ∧
    (r + l = 0 → pasym (PVal.fin l) (PVal.fin r) = PVal.nonfin) ∧
    PVal.nonfin ≠ PVal.fin 0 ∧
    (List.zipWith pasym L R).get? i = some (pasym lv rv) ∧
    (validate_roi_csv (some df)).result =
      Except.ok ⟨df.cols ++ [("Asymmetry",
        List.zipWith pasym (df.getCol "Amygdala_L") (df.getCol "Amygdala_R"))]⟩ := by
  obtain ⟨h1, h2, h3⟩ := hc
  refine ⟨fun hs => ?_, fun hs => ?_, fun hc => PVal.noConfusion hc,
    zipWith_get?_some pasym L R i lv rv hL hR, ?_⟩
  · simp [pasym, psub, padd, pdiv, hs]
  · simp [pasym, psub, padd, pdiv, hs]
  · simp [validate_roi_csv, h1, h2, h3, DataFrame.addCol, deriveAsym]

theorem C2_witness :
    ([PVal.fin 1].get? 0 = some (PVal.fin 1)) ∧
    ([PVal.fin 3].get? 0 = some (PVal.fin 3)) ∧
    ((DataFrame.mk [("Amygdala_L", [PVal.fin 1]),
        ("Amygdala_R", [PVal.fin 3])]).hasCol "Amygdala_L" = true ∧
      (DataFrame.mk [("Amygdala_L", [PVal.fin 1]),
        ("Amygdala_R", [PVal.fin 3])]).hasCol "Amygdala_R" = true ∧
      (DataFrame.mk [("Amygdala_L", [PVal.fin 1]),
        ("Amygdala_R", [PVal.fin 3])]).hasCol "Asymmetry" = false) ∧
    (((3 : ℚ) + 1 ≠ 0 → pasym (PVal.fin 1) (PVal.fin 3) =
        PVal.fin (((3 : ℚ) - 1) / ((3 : ℚ) + 1))) ∧
      ((3 : ℚ) + 1 = 0 → pasym (PVal.fin 1) (PVal.fin 3) = PVal.nonfin) ∧
      PVal.nonfin ≠ PVal.fin 0 ∧
      (List.zipWith pasym [PVal.fin 1] [PVal.fin 3]).get? 0 =
        some (pasym (PVal.fin 1) (PVal.fin 3)) ∧
      (validate_roi_csv (some ⟨[("Amygdala_L", [PVal.fin 1]),
          ("Amygdala_R", [PVal.fin 3])]⟩)).result =
        Except.ok ⟨[("Amygdala_L", [PVal.fin 1]), ("Amygdala_R", [PVal.fin 3])] ++
          [("Asymmetry", List.zipWith pasym
            ((DataFrame.mk [("Amygdala_L", [PVal.fin 1]),
              ("Amygdala_R", [PVal.fin 3])]).getCol "Amygdala_L")
            ((DataFrame.mk [("Amygdala_L", [PVal.fin 1]),
              ("Amygdala_R", [PVal.fin 3])]).getCol "Amygdala_R"))]⟩) :=
  ⟨rfl, rfl, ⟨rfl, rfl, rfl⟩,
    C2_asymmetry_formula 1 3 [PVal.fin 1] [PVal.fin 3] 0 (PVal.fin 1) (PVal.fin 3)
      ⟨[("Amygdala_L", [PVal.fin 1]), ("Amygdala_R", [PVal.fin 3])]⟩
      rfl rfl ⟨rfl, rfl, rfl⟩⟩

/-- C3: running `validate_roi_csv` on a dataset that already contains the
Asymmetry column performs zero writes; the file state is unchanged. -/
theorem C3_repair_idempotent (df : DataFrame) (h : df.hasCol "Asymmetry" = true) :
    (validate_roi_csv (some df)).writes = 0 ∧
    (validate_roi_csv (some df)).file = some df := by
  by_cases hL : df.hasCol "Amygdala_L" = false
  · simp [validate_roi_csv, hL]
  · by_cases hR : df.hasCol "Amygdala_R" = false
    · simp [validate_roi_csv, hL, hR]
    · rw [Bool.not_eq_false] at hL hR
      simp [validate_roi_csv, hL, hR, h]

theorem C3_witness :
    (DataFrame.mk [("Amygdala_L", [PVal.fin 1]), ("Amygdala_R", [PVal.fin 3]),
      ("Asymmetry", [PVal.fin (1 / 2)])]).hasCol "Asymmetry" = true ∧
    (validate_roi_csv (some ⟨[("Amygdala_L", [PVal.fin 1]), ("Amygdala_R", [PVal.fin 3]),
      ("Asymmetry", [PVal.fin (1 / 2)])]⟩)).writes = 0 ∧
    (validate_roi_csv (some ⟨[("Amygdala_L", [PVal.fin 1]), ("Amygdala_R", [PVal.fin 3]),
      ("Asymmetry", [PVal.fin (1 / 2)])]⟩)).file =
      some ⟨[("Amygdala_L", [PVal.fin 1]), ("Amygdala_R", [PVal.fin 3]),
        ("Asymmetry", [PVal.fin (1 / 2)])]⟩ :=
  ⟨by decide, C3_repair_idempotent _ (by decide)⟩

/-- C4: a persisted dataset missing Amygdala_R (or Amygdala_L) makes
`validate_roi_csv` fail with a schema-violation error and perform no write;
the file state is unchanged. -/
theorem C4_schema_violation_no_write (df : DataFrame)
    (h : df.hasCol "Amygdala_L" = false ∨ df.hasCol "Amygdala_R" = false) :
    (∃ c, (validate_roi_csv (some df)).result = Except.error (VError.schemaViolation c)) ∧
    (validate_roi_csv (some df)).writes = 0 ∧
    (validate_roi_csv (some df)).file = some df := by
  by_cases hL : df.hasCol "Amygdala_L" = false
  · exact ⟨⟨"Amygdala_L", by simp [validate_roi_csv, hL]⟩,
      by simp [validate_roi_csv, hL], by simp [validate_roi_csv, hL]⟩
  · have hR : df.hasCol "Amygdala_R" = false := h.resolve_left hL
    exact ⟨⟨"Amygdala_R", by simp [validate_roi_csv, hL, hR]⟩,
      by simp [validate_roi_csv, hL, hR], by simp [validate_roi_csv, hL, hR]⟩

theorem C4_witness :
    ((DataFrame.mk [("Subject", [PVal.fin 1]), ("Amygdala_L", [PVal.fin 2])]).hasCol
        "Amygdala_L" = false ∨
      (DataFrame.mk [("Subject", [PVal.fin 1]), ("Amygdala_L", [PVal.fin 2])]).hasCol
        "Amygdala_R" = false) ∧
    (∃ c, (validate_roi_csv (some ⟨[("Subject", [PVal.fin 1]),
        ("Amygdala_L", [PVal.fin 2])]⟩)).result =
        Except.error (VError.schemaViolation c)) ∧
    (validate_roi_csv (some ⟨[("Subject", [PVal.fin 1]),
      ("Amygdala_L", [PVal.fin 2])]⟩)).writes = 0 ∧
    (validate_roi_csv (some ⟨[("Subject", [PVal.fin 1]),
      ("Amygdala_L", [PVal.fin 2])]⟩)).file =
      some ⟨[("Subject", [PVal.fin 1]), ("Amygdala_L", [PVal.fin 2])]⟩ :=
  ⟨by decide, C4_schema_violation_no_write _ (by decide)⟩

/-! ## C5, C6, C9, C10: AtlasMaskBuilder theorems -/

lemma mem_indexedFilter (p : String → Bool) :
    ∀ (l : List String) (k i : ℕ),
      (i ∈ indexedFilter p l k ↔
        ∃ j s, l.get? j = some s ∧ p s = true ∧ i = k + j)
  | [], k, i => by simp [indexedFilter]
  | a :: l, k, i => by
    by_cases h : p a
    · simp only [indexedFilter, if_pos h, List.mem_cons,
        mem_indexedFilter p l (k + 1) i]
      constructor
      · rintro (rfl | ⟨j, s, hj, hp, rfl⟩)
        · exact ⟨0, a, rfl, h, by omega⟩
        · exact ⟨j + 1, s, by simpa using hj, hp, by omega⟩
      · rintro ⟨j, s, hj, hp, rfl⟩
        cases j with
        | zero => left; omega
        | succ j => right; exact ⟨j, s, by simpa using hj, hp, by omega⟩
    · simp only [indexedFilter, if_neg h, mem_indexedFilter p l (k + 1) i]
      constructor
      · rintro ⟨j, s, hj, hp, rfl⟩
        exact ⟨j + 1, s, by simpa using hj, hp, by omega⟩
      · rintro ⟨j, s, hj, hp, rfl⟩
        cases j with
        | zero =>
          exfalso
          simp only [List.get?] at hj
          cases hj
          exact h (by simpa using hp)
        | succ j => exact ⟨j, s, by simpa using hj, hp, by omega⟩

/-- Index membership for the label filter: `i` is selected iff the `i`-th
entry of the (already cleaned) label list matches the target substring and
not the exclusion substring. -/
lemma mem_matchIndices (labels : List String) (target excl : String) (i : ℕ) :
    i ∈ matchIndices labels target excl ↔
      ∃ name, labels.get? i = some name ∧ strContains name target = true ∧
        strContains name excl = false := by
  rw [matchIndices, mem_indexedFilter]
  constructor
  · rintro ⟨j, s, hj, hp, rfl⟩
    simp only [Bool.and_eq_true, Bool.not_eq_true'] at hp
    exact ⟨s, by simpa using hj, hp.1, hp.2⟩
  · rintro ⟨name, hi, h1, h2⟩
    exact ⟨i, name, hi, by simp [h1, h2], by omega⟩

/-- C5 (amended): the selected indices are exactly the positions in the
whitespace-stripped, blank-filtered vocabulary whose entry contains the target
substring and not the exclusion substring; the built mask assigns 1 to a voxel
iff its label value lies in the selected set, else 0; and the concrete
four-entry vocabulary yields exactly {0, 1}. -/
theorem C5_label_selection (vocab : List String) (target excl : String)
    (volume : List ℕ) (i j v : ℕ) (hv : volume.get? j = some v) :
    (i ∈ matchIndices (cleanLabels vocab) target excl ↔
      ∃ name, (cleanLabels vocab).get? i = some name ∧
        strContains name target = true ∧ strContains name excl = false) ∧
    (buildMaskData volume (matchIndices (cleanLabels vocab) target excl)).get? j =
      some (if v ∈ matchIndices (cleanLabels vocab) target excl then 1 else 0) ∧
    matchIndices (cleanLabels ["Left Amygdala", "Right Amygdala",
      "Left Amygdala Extended", "Background"]) "Amygdala" "Extended" = [0, 1] := by
  refine ⟨mem_matchIndices _ _ _ _, ?_, by decide⟩
  simp only [buildMaskData, List.get?_map, hv, Option.map_some']

/-- C5 counterexample: with a vocabulary containing a blank entry, the builder
selects index 0 and masks out the voxel labeled 1, although position 1 is the
(unique) vocabulary entry containing "Amygdala"; selection by original
vocabulary positions would give {1}. -/
theorem C5_counterexample :
    (fix_overlay_mask_and_render ⟨[" ", "Left Amygdala"], [1]⟩
      "Amygdala" "Extended").savedMask = some [0] ∧
    matchIndices (cleanLabels [" ", "Left Amygdala"]) "Amygdala" "Extended" = [0] ∧
    matchIndices [" ", "Left Amygdala"] "Amygdala" "Extended" = [1] := by decide

theorem C5_witness :
    ([(2 : ℕ)].get? 0 = some 2) ∧
    ((0 ∈ matchIndices (cleanLabels ["Left Amygdala", "Right Amygdala",
        "Left Amygdala Extended", "Background"]) "Amygdala" "Extended" ↔
      ∃ name, (cleanLabels ["Left Amygdala", "Right Amygdala",
          "Left Amygdala Extended", "Background"]).get? 0 = some name ∧
        strContains name "Amygdala" = true ∧ strContains name "Extended" = false) ∧
    (buildMaskData [2] (matchIndices (cleanLabels ["Left Amygdala", "Right Amygdala",
        "Left Amygdala Extended", "Background"]) "Amygdala" "Extended")).get? 0 =
      some (if 2 ∈ matchIndices (cleanLabels ["Left Amygdala", "Right Amygdala",
        "Left Amygdala Extended", "Background"]) "Amygdala" "Extended" then 1 else 0) ∧
    matchIndices (cleanLabels ["Left Amygdala", "Right Amygdala",
      "Left Amygdala Extended", "Background"]) "Amygdala" "Extended" = [0, 1]) :=
  ⟨rfl, C5_label_selection ["Left Amygdala", "Right Amygdala",
    "Left Amygdala Extended", "Background"] "Amygdala" "Extended" [2] 0 0 2 rfl⟩

/-- C6: when the label filter yields an empty matching-index set, the builder
fails with the no-matching-labels error and persists no mask. -/
theorem C6_no_matching_labels (atlas : Atlas) (target excl : String)
    (h : matchIndices (cleanLabels atlas.labels) target excl = []) :
    (fix_overlay_mask_and_render atlas target excl).result =
      Except.error MaskError.noMatchingLabels ∧
    (fix_overlay_mask_and_render atlas target excl).savedMask = none := by
  simp [fix_overlay_mask_and_render, h]

theorem C6_witness :
    matchIndices (cleanLabels (Atlas.mk ["Background", "Thalamus"] [0, 1, 0]).labels)
      "Amygdala" "Extended" = [] ∧
    (fix_overlay_mask_and_render ⟨["Background", "Thalamus"], [0, 1, 0]⟩
      "Amygdala" "Extended").result = Except.error MaskError.noMatchingLabels ∧
    (fix_overlay_mask_and_render ⟨["Background", "Thalamus"], [0, 1, 0]⟩
      "Amygdala" "Extended").savedMask = none :=
  ⟨by decide, C6_no_matching_labels ⟨["Background", "Thalamus"], [0, 1, 0]⟩
    "Amygdala" "Extended" (by decide)⟩

/-- C9: when the label filter matches, construction succeeds and the mask
persisted and returned is `buildMaskData` of the atlas volume — the same
function of the input whether or not the coverage warning fires — and the
warning fires exactly when the 1-voxel fraction exceeds 2%. -/
theorem C9_coverage_warning (atlas : Atlas) (target excl : String)
    (h : matchIndices (cleanLabels atlas.labels) target excl ≠ []) :
    (fix_overlay_mask_and_render atlas target excl).result =
      Except.ok (buildMaskData atlas.volume
        (matchIndices (cleanLabels atlas.labels) target excl)) ∧
    (fix_overlay_mask_and_render atlas target excl).savedMask =
      some (buildMaskData atlas.volume
        (matchIndices (cleanLabels atlas.labels) target excl)) ∧
    ((fix_overlay_mask_and_render atlas target excl).warned = true ↔
      coverageFrac (buildMaskData atlas.volume
        (matchIndices (cleanLabels atlas.labels) target excl)) > 2 / 100) := by
  have hne : (matchIndices (cleanLabels atlas.labels) target excl).isEmpty = false := by
    cases hm : matchIndices (cleanLabels atlas.labels) target excl with
    | nil => exact absurd hm h
    | cons a l => rfl
  refine ⟨?_, ?_, ?_⟩ <;>
    simp [fix_overlay_mask_and_render, hne, decide_eq_true_iff]

theorem C9_witness :
    matchIndices (cleanLabels (Atlas.mk ["Background", "Left Amygdala"]
      [1, 0, 0]).labels) "Amygdala" "Extended" ≠ [] ∧
    (fix_overlay_mask_and_render ⟨["Background", "Left Amygdala"], [1, 0, 0]⟩
        "Amygdala" "Extended").result =
      Except.ok (buildMaskData [1, 0, 0]
        (matchIndices (cleanLabels ["Background", "Left Amygdala"])
          "Amygdala" "Extended")) ∧
    (fix_overlay_mask_and_render ⟨["Background", "Left Amygdala"], [1, 0, 0]⟩
        "Amygdala" "Extended").savedMask =
      some (buildMaskData [1, 0, 0]
        (matchIndices (cleanLabels ["Background", "Left Amygdala"])
          "Amygdala" "Extended")) ∧
    ((fix_overlay_mask_and_render ⟨["Background", "Left Amygdala"], [1, 0, 0]⟩
        "Amygdala" "Extended").warned = true ↔
      coverageFrac (buildMaskData [1, 0, 0]
        (matchIndices (cleanLabels ["Background", "Left Amygdala"])
          "Amygdala" "Extended")) > 2 / 100) :=
  ⟨by decide, C9_coverage_warning ⟨["Background", "Left Amygdala"], [1, 0, 0]⟩
    "Amygdala" "Extended" (by decide)⟩

/-- C10: the builder whitespace-strips every vocabulary entry and removes
blank entries before matching; matching indices are positions in this filtered
sequence, so with no blank entries they coincide with the original vocabulary
positions, while a blank entry before an amygdala entry shifts the selected
index ([0] instead of original position 1). -/
theorem C10_blank_filtering (vocab : List String) (target excl : String)
    (hnb : ∀ s ∈ vocab, ¬ pstrip s = "") :
    cleanLabels vocab = vocab.map pstrip ∧
    (∀ i, i ∈ matchIndices (cleanLabels vocab) target excl ↔
      ∃ s, vocab.get? i = some s ∧ strContains (pstrip s) target = true ∧
        strContains (pstrip s) excl = false) ∧
    (matchIndices (cleanLabels ["", "Left Amygdala"]) "Amygdala" "Extended" = [0] ∧
      matchIndices ["", "Left Amygdala"] "Amygdala" "Extended" = [1]) := by
  have hclean : cleanLabels vocab = vocab.map pstrip := by
    rw [cleanLabels, List.filter_eq_self]
    intro a ha
    obtain ⟨s, hs, rfl⟩ := List.mem_map.mp ha
    simpa using hnb s hs
  refine ⟨hclean, fun i => ?_, by decide, by decide⟩
  rw [mem_matchIndices, hclean]
  constructor
  · rintro ⟨name, hi, h1, h2⟩
    rw [List.get?_map] at hi
    obtain ⟨s, hs, rfl⟩ := Option.map_eq_some'.mp hi
    exact ⟨s, hs, h1, h2⟩
  · rintro ⟨s, hs, h1, h2⟩
    exact ⟨pstrip s, by rw [List.get?_map, hs]; rfl, h1, h2⟩

theorem C10_witness :
    (∀ s ∈ ["Background", "Left Amygdala"], ¬ pstrip s = "") ∧
    (cleanLabels ["Background", "Left Amygdala"] =
      List.map pstrip ["Background", "Left Amygdala"] ∧
    (∀ i, i ∈ matchIndices (cleanLabels ["Background", "Left Amygdala"])
        "Amygdala" "Extended" ↔
      ∃ s, (["Background", "Left Amygdala"] : List String).get? i = some s ∧
        strContains (pstrip s) "Amygdala" = true ∧
        strContains (pstrip s) "Extended" = false) ∧
    (matchIndices (cleanLabels ["", "Left Amygdala"]) "Amygdala" "Extended" = [0] ∧
      matchIndices ["", "Left Amygdala"] "Amygdala" "Extended" = [1])) :=
  ⟨by decide, C10_blank_filtering ["Background", "Left Amygdala"]
    "Amygdala" "Extended" (by decide)⟩

/-! ## C7, C8: SchemaNormalizer theorems -/

lemma find?_eq_head?_filter {α : Type} (p : α → Bool) (l : List α) :
    l.find? p = (l.filter p).head? := by
  induction l with
  | nil => rfl
  | cons a l ih =>
    by_cases h : p a = true
    · rw [List.find?_cons_of_pos _ h, List.filter_cons_of_pos h, List.head?_cons]
    · rw [List.find?_cons_of_neg _ h, List.filter_cons_of_neg h, ih]

lemma mem_renameCol_hit {α : Type} {t : List (String × α)} {old : String} {v : α}
    (new : String) (h : (old, v) ∈ t) : (new, v) ∈ renameCol old new t := by
  have := List.mem_map_of_mem (fun p : String × α =>
    if p.1 = old then (new, p.2) else p) h
  simpa [renameCol] using this

lemma mem_renameCol_miss {α : Type} {t : List (String × α)} {old c : String} {v : α}
    (new : String) (hne : c ≠ old) (h : (c, v) ∈ t) : (c, v) ∈ renameCol old new t := by
  have := List.mem_map_of_mem (fun p : String × α =>
    if p.1 = old then (new, p.2) else p) h
  simpa [renameCol, hne] using this

lemma mem_resolveKey {α : Type} {t : List (String × α)} {c : String} {v : α}
    (canonical : String) (cands : List String) (hc : c ∉ cands)
    (h : (c, v) ∈ t) : (c, v) ∈ resolveKey canonical cands t := by
  rw [resolveKey]
  split
  · exact h
  · cases hf : findFirst cands (colNames t) with
    | none => exact h
    | some c' =>
      have hc' : c' ∈ cands := List.mem_of_find?_eq_some hf
      exact mem_renameCol_miss _ (fun he => hc (he ▸ hc')) h

/-- C7: with no `subject` column after comparison normalization, the first
present candidate of the fixed priority list `sub, participant, id,
participant_id` is renamed to the canonical subject column with its values
preserved; the scan returns the head of the priority list filtered to present
names (fixed priority); when no candidate is present the subject-resolution
step passes the table through unchanged; and a `  Participant_ID ` column
(mixed case, surrounding whitespace) is mapped to the canonical column. -/
theorem C7_subject_priority {α : Type} (t : List (String × α)) (c : String)
    (v : α) (w : α)
    (h1 : (colNames (normCols t)).contains "subject" = false)
    (h2 : findFirst subjCands (colNames (normCols t)) = some c)
    (h3 : (c, v) ∈ normCols t) :
    ("Subject", v) ∈ normalize_anxiety_columns t ∧
    findFirst subjCands (colNames (normCols t)) =
      (subjCands.filter (fun x => (colNames (normCols t)).contains x)).head? ∧
    (∀ u : List (String × α),
      (colNames (normCols u)).contains "subject" = false →
      findFirst subjCands (colNames (normCols u)) = none →
      resolveKey "subject" subjCands (normCols u) = normCols u) ∧
    normalize_anxiety_columns [("  Participant_ID ", w)] = [("Subject", w)] := by
  refine ⟨?_, find?_eq_head?_filter _ _, fun u hu hf => ?_, ?_⟩
  · have hstep : resolveKey "subject" subjCands (normCols t) =
        renameCol c "subject" (normCols t) := by
      rw [resolveKey, if_neg (by rw [h1]; decide), h2]
    have m1 : ("subject", v) ∈ resolveKey "subject" subjCands (normCols t) := by
      rw [hstep]
      exact mem_renameCol_hit _ h3
    have m2 : ("subject", v) ∈
        resolveKey "stai_t" staiCands (resolveKey "subject" subjCands (normCols t)) :=
      mem_resolveKey _ _ (by decide) m1
    have m3 : ("Subject", v) ∈ renameCol "subject" "Subject"
        (resolveKey "stai_t" staiCands
          (resolveKey "subject" subjCands (normCols t))) :=
      mem_renameCol_hit _ m2
    exact mem_renameCol_miss _ (by decide) m3
  · rw [resolveKey, if_neg (by rw [hu]; decide), hf]
  · rfl

theorem C7_witness :
    ((colNames (normCols [("  Participant_ID ", [(41 : Int)])])).contains
      "subject" = false) ∧
    (findFirst subjCands (colNames (normCols [("  Participant_ID ", [(41 : Int)])])) =
      some "participant_id") ∧
    (("participant_id", [(41 : Int)]) ∈ normCols [("  Participant_ID ", [(41 : Int)])]) ∧
    (("Subject", [(41 : Int)]) ∈
        normalize_anxiety_columns [("  Participant_ID ", [(41 : Int)])] ∧
      findFirst subjCands (colNames (normCols [("  Participant_ID ", [(41 : Int)])])) =
        (subjCands.filter (fun x =>
          (colNames (normCols [("  Participant_ID ", [(41 : Int)])])).contains x)).head? ∧
      (∀ u : List (String × List Int),
        (colNames (normCols u)).contains "subject" = false →
        findFirst subjCands (colNames (normCols u)) = none →
        resolveKey "subject" subjCands (normCols u) = normCols u) ∧
      normalize_anxiety_columns [("  Participant_ID ", [(7 : Int)])] =
        [("Subject", [(7 : Int)])]) :=
  ⟨by decide, by decide, by decide,
    C7_subject_priority [("  Participant_ID ", [(41 : Int)])] "participant_id"
      [(41 : Int)] [(7 : Int)] (by decide) (by decide) (by decide)⟩

lemma find?_congr_on {α : Type} (p q : α → Bool) (l : List α)
    (h : ∀ a ∈ l, p a = q a) : l.find? p = l.find? q := by
  induction l with
  | nil => rfl
  | cons a l ih =>
    have ha := h a (List.mem_cons_self a l)
    by_cases hp : p a = true
    · rw [List.find?_cons_of_pos _ hp, List.find?_cons_of_pos _ (ha.symm.trans hp)]
    · rw [List.find?_cons_of_neg _ hp,
        List.find?_cons_of_neg _ (fun hq => hp (ha.trans hq)),
        ih (fun b hb => h b (List.mem_cons_of_mem a hb))]

lemma colNames_renameCol {α : Type} (old new : String) (t : List (String × α)) :
    colNames (renameCol old new t) =
      (colNames t).map (fun x => if x = old then new else x) := by
  simp only [colNames, renameCol, List.map_map]
  congr 1
  funext p
  by_cases h : p.1 = old <;> simp [Function.comp, h]

lemma contains_colNames_renameCol {α : Type} (old new s : String)
    (t : List (String × α)) (h1 : s ≠ old) (h2 : s ≠ new) :
    (colNames (renameCol old new t)).contains s = (colNames t).contains s := by
  rw [colNames_renameCol]
  simp only [List.contains, List.elem_eq_mem]
  rw [decide_eq_decide]
  constructor
  · intro hmem
    obtain ⟨x, hx, hfx⟩ := List.mem_map.mp hmem
    by_cases hxo : x = old
    · rw [if_pos hxo] at hfx
      exact absurd hfx.symm h2
    · rw [if_neg hxo] at hfx
      exact hfx ▸ hx
  · intro hmem
    exact List.mem_map.mpr ⟨s, hmem, by rw [if_neg h1]⟩

/-- Resolving the subject key never disturbs what the stai_t resolution step
will match: the subject rename only turns a subject candidate into `subject`,
and neither name is `stai_t` or a stai candidate. -/
lemma resolvedName_stai_stable {α : Type} (t : List (String × α)) :
    resolvedName "stai_t" staiCands (resolveKey "subject" subjCands t) =
    resolvedName "stai_t" staiCands t := by
  rw [resolveKey]
  split
  · rfl
  · cases hf : findFirst subjCands (colNames t) with
    | none => rfl
    | some a =>
      have ha : a ∈ subjCands := List.mem_of_find?_eq_some hf
      have hsa : ("stai_t" : String) ≠ a :=
        (by decide : ∀ x ∈ subjCands, ("stai_t" : String) ≠ x) a ha
      have hdisj : ∀ c ∈ staiCands, c ≠ a :=
        fun c hc =>
          (by decide : ∀ x ∈ subjCands, ∀ c ∈ staiCands, c ≠ x) a ha c hc
      have hds : ∀ c ∈ staiCands, c ≠ "subject" := by decide
      have hcontains :=
        contains_colNames_renameCol a "subject" "stai_t" t hsa (by decide)
      have hfind : findFirst staiCands (colNames (renameCol a "subject" t)) =
          findFirst staiCands (colNames t) := by
        rw [findFirst, findFirst]
        exact find?_congr_on _ _ _ (fun c hc =>
          contains_colNames_renameCol a "subject" c t (hdisj c hc) (hds c hc))
      rw [resolvedName, resolvedName, hcontains, hfind]

lemma mem_resolveKey_of_ne {α : Type} {t : List (String × α)} {n : String} {v : α}
    (canonical : String) (cands : List String)
    (h : some n ≠ resolvedName canonical cands t) (hm : (n, v) ∈ t) :
    (n, v) ∈ resolveKey canonical cands t := by
  by_cases hcon : (colNames t).contains canonical = true
  · rw [resolveKey, if_pos hcon]
    exact hm
  · rw [resolveKey, if_neg hcon]
    cases hf : findFirst cands (colNames t) with
    | none => exact hm
    | some a =>
      have hna : n ≠ a := by
        intro he
        apply h
        rw [resolvedName, if_neg hcon, hf, he]
      exact mem_renameCol_miss _ hna hm

/-- C8 (amended): comparison normalization is destructive and in place: every
column other than the matched subject-identifier and trait-score columns
(those whose normalized name the resolution steps match) appears — both in the
returned table and in the caller's mutated table object — under its trimmed,
lower-cased name, with its values unchanged. -/
theorem C8_destructive_normalization {α : Type} (t : List (String × α))
    (c : String) (v : α) (hm : (c, v) ∈ t)
    (h1 : some (normName c) ≠ resolvedName "subject" subjCands (normCols t))
    (h2 : some (normName c) ≠ resolvedName "stai_t" staiCands (normCols t)) :
    (normName c, v) ∈ normalize_anxiety_columns t ∧
    (normName c, v) ∈ normalize_anxiety_columns_caller t := by
  have m0 : (normName c, v) ∈ normCols t := by
    have := List.mem_map_of_mem (fun p : String × α => (normName p.1, p.2)) hm
    simpa [normCols] using this
  have hnames : normName c ∈ colNames (normCols t) :=
    List.mem_map.mpr ⟨(normName c, v), m0, rfl⟩
  have hns : normName c ≠ "subject" := by
    intro he
    apply h1
    have hcon : (colNames (normCols t)).contains "subject" = true := by
      rw [← he]
      simp [List.contains, hnames]
    rw [resolvedName, if_pos hcon, he]
  have hnt : normName c ≠ "stai_t" := by
    intro he
    apply h2
    have hcon : (colNames (normCols t)).contains "stai_t" = true := by
      rw [← he]
      simp [List.contains, hnames]
    rw [resolvedName, if_pos hcon, he]
  have m1 : (normName c, v) ∈ resolveKey "subject" subjCands (normCols t) :=
    mem_resolveKey_of_ne _ _ h1 m0
  have h2' : some (normName c) ≠
      resolvedName "stai_t" staiCands (resolveKey "subject" subjCands (normCols t)) := by
    rw [resolvedName_stai_stable]
    exact h2
  have m2 : (normName c, v) ∈
      resolveKey "stai_t" staiCands (resolveKey "subject" subjCands (normCols t)) :=
    mem_resolveKey_of_ne _ _ h2' m1
  refine ⟨mem_renameCol_miss _ hnt (mem_renameCol_miss _ hns m2), ?_⟩
  rw [normalize_anxiety_columns_caller]
  split
  · exact m0
  · exact mem_renameCol_miss _ hnt (mem_renameCol_miss _ hns m0)

/-- C8 counterexample: the unmatched column `Age Group` does not keep its
original name — the returned table holds it as `age group` — and the caller's
table object does not survive unmutated either: after the block it holds
`age group`, not the original `Age Group`. -/
theorem C8_counterexample :
    normalize_anxiety_columns [("Age Group", [(1 : Int)])] =
      [("age group", [(1 : Int)])] ∧
    ("Age Group", [(1 : Int)]) ∉
      normalize_anxiety_columns [("Age Group", [(1 : Int)])] ∧
    normalize_anxiety_columns_caller [("Age Group", [(1 : Int)])] =
      [("age group", [(1 : Int)])] ∧
    normalize_anxiety_columns_caller [("Age Group", [(1 : Int)])] ≠
      [("Age Group", [(1 : Int)])] := by decide

theorem C8_witness :
    (("Participant", [(2 : Int)]) ∈
      [("Sub", [(1 : Int)]), ("Participant", [(2 : Int)]), ("Age Group", [(3 : Int)])]) ∧
    (some (normName "Participant") ≠ resolvedName "subject" subjCands
      (normCols [("Sub", [(1 : Int)]), ("Participant", [(2 : Int)]),
        ("Age Group", [(3 : Int)])])) ∧
    (some (normName "Participant") ≠ resolvedName "stai_t" staiCands
      (normCols [("Sub", [(1 : Int)]), ("Participant", [(2 : Int)]),
        ("Age Group", [(3 : Int)])])) ∧
    ((normName "Participant", [(2 : Int)]) ∈ normalize_anxiety_columns
        [("Sub", [(1 : Int)]), ("Participant", [(2 : Int)]), ("Age Group", [(3 : Int)])] ∧
      (normName "Participant", [(2 : Int)]) ∈ normalize_anxiety_columns_caller
        [("Sub", [(1 : Int)]), ("Participant", [(2 : Int)]), ("Age Group", [(3 : Int)])]) :=
  ⟨by decide, by decide, by decide,
    C8_destructive_normalization
      [("Sub", [(1 : Int)]), ("Participant", [(2 : Int)]), ("Age Group", [(3 : Int)])]
      "Participant" [(2 : Int)] (by decide) (by decide) (by decide)⟩

end AmygQA
